import Mathlib

/-!
Verification development for the pyMM mixture-model library
(src/pyMM/models.py).  The definitions below are a shallow embedding of
the parts of the library that the checked claims are about:

* numpy 2-D arrays with their broadcasting semantics, as the structure
  NMat (a matrix of rationals carrying its shape), used where a claim
  depends on shape errors that numpy raises at run time;
* the per-component density-evaluation retry policy of
  BaseModel.get_log_responsibilities_miss (robust mode);
* the log-sum-exp normalisation of responsibilities and the mixture
  weights computed by the M-step, over the reals;
* the EM convergence driver BaseModel.fit and the fitted-model methods
  score_samples, score, sample and MFA.reconstruct;
* the covariance materializers of each family (full, spherical,
  diagonal, PPCA, factor analysis);
* the per-row sufficient-statistic accumulations of the missing-data
  E-steps of GMM, MPPCA and MFA.

Exact real/rational arithmetic stands in for floating point; the scipy
density routine, the numpy random generator and the parameter seeding routines are
external collaborators and are modelled at their boundary (see the doc
comments of scipyPdf, sample and fit).
-/

set_option maxHeartbeats 1000000

namespace PyMM

/-! ### numpy 2-D arrays with shape and broadcasting -/

/-- Model of a numpy 2-D array of floats: the shape together with the
entry function (entries outside the shape are junk and never read). -/
structure NMat where
  rows : ℕ
  cols : ℕ
  entry : ℕ → ℕ → ℚ

/-- Combination of one axis length of two operands under numpy
broadcasting: equal lengths combine, a length-1 axis stretches to the
other, anything else is a broadcast error (none). -/
def bdim (a b : ℕ) : Option ℕ :=
  if a = b then some a
  else if a = 1 then some b
  else if b = 1 then some a
  else none

/-- Index into an axis that may have been broadcast from length 1. -/
def bidx (dim i : ℕ) : ℕ := if dim = 1 then 0 else i

/-- Elementwise sum of two numpy arrays, with broadcasting; none models
the ValueError numpy raises on incompatible shapes. -/
def NMat.add (A B : NMat) : Option NMat :=
  match bdim A.rows B.rows, bdim A.cols B.cols with
  | some r, some c =>
      some ⟨r, c, fun i j =>
        A.entry (bidx A.rows i) (bidx A.cols j) +
        B.entry (bidx B.rows i) (bidx B.cols j)⟩
  | _, _ => none

/-- Elementwise product of two numpy arrays (the * operator), with
broadcasting; none models the ValueError on incompatible shapes. -/
def NMat.hadamard (A B : NMat) : Option NMat :=
  match bdim A.rows B.rows, bdim A.cols B.cols with
  | some r, some c =>
      some ⟨r, c, fun i j =>
        A.entry (bidx A.rows i) (bidx A.cols j) *
        B.entry (bidx B.rows i) (bidx B.cols j)⟩
  | _, _ => none

/-- Matrix product (the @ operator); none models the ValueError on a
dimension mismatch. -/
def NMat.matmul (A B : NMat) : Option NMat :=
  if A.cols = B.rows then
    some ⟨A.rows, B.cols, fun i j =>
      ((List.range A.cols).map (fun k => A.entry i k * B.entry k j)).sum⟩
  else none

/-- Transpose of a numpy array. -/
def NMat.transpose (A : NMat) : NMat := ⟨A.cols, A.rows, fun i j => A.entry j i⟩

/-- Scalar multiple of a numpy array. -/
def NMat.smul (c : ℚ) (A : NMat) : NMat := ⟨A.rows, A.cols, fun i j => c * A.entry i j⟩

/-- The identity array np.eye n. -/
def NMat.eye (n : ℕ) : NMat := ⟨n, n, fun i j => if i = j then 1 else 0⟩

/-- np.trace: sum of the diagonal. -/
def NMat.trace (A : NMat) : ℚ :=
  ((List.range (min A.rows A.cols)).map (fun i => A.entry i i)).sum

/-! ### Model of the scipy density boundary -/

/-- Determinant of the leading n-by-n block of an entry function, by
Laplace expansion along the first column. -/
def detAux : ℕ → (ℕ → ℕ → ℚ) → ℚ
  | 0, _ => 1
  | n + 1, f =>
      ((List.range (n + 1)).map (fun i =>
        (-1 : ℚ) ^ i * f i 0 *
          detAux n (fun r c => f (if r < i then r else r + 1) (c + 1)))).sum

/-- Acceptance condition of scipy.stats.multivariate_normal.logpdf for
a data/mean vector of length d, a mean of length m and a covariance S:
S must be a square d-by-d array, the mean must match, and the d-by-d
block must be symmetric positive definite (Sylvester: all leading
principal minors positive). -/
def scipyAccepts (d m : ℕ) (S : NMat) : Prop :=
  S.rows = d ∧ S.cols = d ∧ m = d ∧
  (∀ i < d, ∀ j < d, S.entry i j = S.entry j i) ∧
  (∀ k < d, 0 < detAux (k + 1) S.entry)

instance (d m : ℕ) (S : NMat) : Decidable (scipyAccepts d m S) := by
  unfold scipyAccepts; infer_instance

/-- Boundary model of scipy.stats.multivariate_normal.logpdf x m S: the
call succeeds exactly when the covariance S is a square matrix matching
the length of x and m and is symmetric positive definite; otherwise
scipy raises (LinAlgError or ValueError), modelled as none.  The checked
claims depend only on success versus failure of this external routine,
so the returned log-density value is fixed at 0. -/
def scipyPdf (x m : List ℚ) (S : NMat) : Option ℚ :=
  if scipyAccepts x.length m.length S then some 0 else none

/-! ### Claim C1: the robust retry of the responsibility evaluator -/

/-- Outcome of evaluating one mixture component on one row: a
log-density, the ill-conditioning LinAlgError raised by the handler, or
an uncaught shape ValueError escaping the try blocks. -/
inductive EvalResult
  | ok (v : ℚ)
  | illCondErr
  | shapeErr
deriving DecidableEq

/-- Translation of the per-(row, component) body of
BaseModel.get_log_responsibilities_miss (models.py lines 84-102):
try logpdf(row_obs, mu_obs, Sigma_obs); on failure, if robust, form
Sigma_obs + SMALL * np.eye(data_dim) (note: np.eye of the FULL data
dimension, exactly as in the source) and retry once, raising the
ill-conditioning error if the retry fails; if not robust, raise at
once.  The broadcast in the addition happens outside both try blocks,
so its failure is an uncaught ValueError (shapeErr).  With
SigmaObs.rows = dataDim this is also the per-component body of the
complete-data path (models.py lines 54-65).  pdf is the external scipy
boundary. -/
def evalComponentMiss (pdf : List ℚ → List ℚ → NMat → Option ℚ)
    (robust : Bool) (SMALL : ℚ) (dataDim : ℕ)
    (rowObs muObs : List ℚ) (SigmaObs : NMat) : EvalResult :=
  match pdf rowObs muObs SigmaObs with
  | some v => .ok v
  | none =>
    if robust then
      match SigmaObs.add (NMat.smul SMALL (NMat.eye dataDim)) with
      | none => .shapeErr
      | some Srob =>
        match pdf rowObs muObs Srob with
        | some v => .ok v
        | none => .illCondErr
    else .illCondErr

/-- Modelled from the claim wording for comparison: the same retry
policy but with SMALL added to the diagonal of the covariance matrix
restricted to the observed coordinates, that is np.eye of the size of
Sigma_obs itself. -/
def evalComponentMissPerClaim (pdf : List ℚ → List ℚ → NMat → Option ℚ)
    (robust : Bool) (SMALL : ℚ)
    (rowObs muObs : List ℚ) (SigmaObs : NMat) : EvalResult :=
  match pdf rowObs muObs SigmaObs with
  | some v => .ok v
  | none =>
    if robust then
      match SigmaObs.add (NMat.smul SMALL (NMat.eye SigmaObs.rows)) with
      | none => .shapeErr
      | some Srob =>
        match pdf rowObs muObs Srob with
        | some v => .ok v
        | none => .illCondErr
    else .illCondErr

/-- Failing input for C1: the observed 2x2 block of a component
covariance in a 3-dimensional model, singular (all zeros). -/
def sigObsBad : NMat := ⟨2, 2, fun _ _ => 0⟩

/-! ### Claim C2: the residual statistic of MPPCA on the missing path -/

/-- Translation of the expression np.trace(zz * W.T @ W) appearing in
MPPCA.e_step_miss (models.py lines 1074 and 1107).  Python gives * and
@ equal precedence with left associativity, so the expression is
(zz * W.T) @ W: an elementwise broadcasted product of the (L, L) array
zz with the (L, D) array W.T, followed by a matrix product with W. -/
def mppcaResidTermMiss (zz W : NMat) : Option ℚ :=
  Option.map NMat.trace ((NMat.hadamard zz W.transpose).bind (fun t => NMat.matmul t W))

/-- Translation of the corresponding per-row expression
np.trace(zz * (W.T @ W)) of the complete-data E-step
MPPCA.e_step_no_miss (models.py line 964), where the product W.T @ W is
parenthesised. -/
def mppcaResidTermNoMiss (zz W : NMat) : Option ℚ :=
  Option.map NMat.trace ((NMat.matmul W.transpose W).bind (fun g => NMat.hadamard zz g))

/-- A latent second moment E[z z^t] for latent_dim = 2 (the identity). -/
def zzC : NMat := ⟨2, 2, fun i j => if i = j then 1 else 0⟩

/-- A loading matrix for data_dim = 3, latent_dim = 2 (all ones). -/
def wC : NMat := ⟨3, 2, fun _ _ => 1⟩

/-! ### Claim C3: the second-moment block of the GMM missing-data E-step

Here rows are fully typed: the data dimension is D, a missing pattern is
a Boolean mask obs over Fin D, and the observed index set is the subtype
of indices with obs i = true.  The pseudoinverse np.linalg.pinv of the
observed block (an external numpy routine) enters only as the matrix
SigInv it returns; every statement below holds for an arbitrary such
matrix, and for an invertible observed block the pseudoinverse is the
ordinary inverse. -/

/-- Conditional mean of coordinate i given the observed coordinates,
exactly as assembled in GMM.e_step_miss (models.py lines 620-623):
mu_miss + Sigma_miss_obs @ Sigma_obs_inv @ (row_obs - mu_obs).  The
formula is stated for every index i; the E-step reads it at missing
indices only. -/
def condMean (D : ℕ) (Sigma : Matrix (Fin D) (Fin D) ℚ) (mu row : Fin D → ℚ)
    (obs : Fin D → Bool)
    (SigInv : Matrix {t : Fin D // obs t = true} {t : Fin D // obs t = true} ℚ)
    (i : Fin D) : ℚ :=
  mu i + ∑ j : {t : Fin D // obs t = true},
    (∑ l : {t : Fin D // obs t = true}, Sigma i l.1 * SigInv l j) * (row j.1 - mu j.1)

/-- Conditional covariance entry (i, j), exactly as assembled in
GMM.e_step_miss (models.py lines 624-627):
Sigma_miss - Sigma_miss_obs @ Sigma_obs_inv @ Sigma_obs_miss. -/
def condCov (D : ℕ) (Sigma : Matrix (Fin D) (Fin D) ℚ) (obs : Fin D → Bool)
    (SigInv : Matrix {t : Fin D // obs t = true} {t : Fin D // obs t = true} ℚ)
    (i j : Fin D) : ℚ :=
  Sigma i j - ∑ a : {t : Fin D // obs t = true}, ∑ b : {t : Fin D // obs t = true},
    Sigma i a.1 * SigInv a b * Sigma b.1 j

/-- The per-row matrix xx of GMM.e_step_miss (models.py lines 636-642),
filled by blocks over the observed/missing partition: observed pairs get
the data outer product, mixed pairs pair the datum with the conditional
mean, and missing pairs get outer(mean_cond, mean_cond) + Sigma_cond. -/
def gmmMissXX (D : ℕ) (Sigma : Matrix (Fin D) (Fin D) ℚ) (mu row : Fin D → ℚ)
    (obs : Fin D → Bool)
    (SigInv : Matrix {t : Fin D // obs t = true} {t : Fin D // obs t = true} ℚ)
    (i j : Fin D) : ℚ :=
  if obs i then
    (if obs j then row i * row j
     else row i * condMean D Sigma mu row obs SigInv j)
  else
    (if obs j then condMean D Sigma mu row obs SigInv i * row j
     else condMean D Sigma mu row obs SigInv i * condMean D Sigma mu row obs SigInv j +
          condCov D Sigma obs SigInv i j)

/-- The contribution of one row to the accumulated second-moment matrix:
xx_tot += xx * r[n] (models.py line 643), with r the responsibility of
the row for the component. -/
def gmmMissXXContrib (D : ℕ) (Sigma : Matrix (Fin D) (Fin D) ℚ) (mu row : Fin D → ℚ)
    (obs : Fin D → Bool)
    (SigInv : Matrix {t : Fin D // obs t = true} {t : Fin D // obs t = true} ℚ)
    (r : ℚ) (i j : Fin D) : ℚ :=
  gmmMissXX D Sigma mu row obs SigInv i j * r

/-- Missing pattern used by the concrete check of C3: coordinate 0
observed, coordinate 1 missing, in dimension 2. -/
def obsW : Fin 2 → Bool := fun i => decide (i = 0)

/-! ### Claim C4: responsibility weighting of the latent second moment -/

/-- Increment added to the accumulated latent second moment zz_tot for
one row in the missing-coordinate branch of MFA.e_step_miss (models.py
lines 1443-1444): zz_tot += zz with
zz = cov_z_cond + np.outer(mean_z_cond, mean_z_cond).  The source adds
it without the responsibility factor.  The conditional moments of the
latent factor computed earlier in the loop body enter as inputs. -/
def mfaMissZZIncrement (L : ℕ) (meanZ : Fin L → ℚ)
    (covZ : Matrix (Fin L) (Fin L) ℚ) : Matrix (Fin L) (Fin L) ℚ :=
  covZ + Matrix.of fun i j => meanZ i * meanZ j

/-- Increment added to zz_tot for one fully observed row in
MFA.e_step_miss (models.py lines 1428-1429): zz_tot += zz * r[n]. -/
def mfaNoMissZZIncrement (L : ℕ) (r : ℚ) (meanZ : Fin L → ℚ)
    (covZ : Matrix (Fin L) (Fin L) ℚ) : Matrix (Fin L) (Fin L) ℚ :=
  r • (covZ + Matrix.of fun i j => meanZ i * meanZ j)

/-- Increment added to zz_tot for one row in the missing-coordinate
branch of MPPCA.e_step_miss (models.py lines 1083-1084):
zz_tot += zz * r[n]. -/
def mppcaMissZZIncrement (L : ℕ) (r : ℚ) (meanZ : Fin L → ℚ)
    (covZ : Matrix (Fin L) (Fin L) ℚ) : Matrix (Fin L) (Fin L) ℚ :=
  r • (covZ + Matrix.of fun i j => meanZ i * meanZ j)

/-! ### The shared model object: fit, score_samples, score, sample -/

/-- A dataset: rows of entries, none standing for a NaN (missing)
entry. -/
abbrev DataSet := List (List (Option ℚ))

/-- np.isnan(X).any(): the dataset has at least one missing entry. -/
def hasMissing (X : DataSet) : Bool := X.any (fun r => r.any Option.isNone)

/-- X[~np.isnan(X).all(axis=1), :]: drop rows that are entirely
missing (models.py line 277). -/
def dropAllMissing (X : DataSet) : DataSet :=
  X.filter (fun r => ! r.all Option.isNone)

/-- The feature dimension read off np.shape (width of the rows; the
datasets of the source are rectangular). -/
def widthOf (X : DataSet) : ℕ := X.headI.length

/-- numpy .mean() of a vector. -/
def listMean (l : List ℚ) : ℚ := l.sum / (l.length : ℚ)

/-- The attributes of a model object that the fitted-model boundary
reads: isFitted (False from the constructor until fit completes),
missing_data and data_dim (set by fit), the parameter dictionary, and
trainNll.  The parameter type P is the family-specific dictionary. -/
structure MixState (P : Type) where
  isFitted : Bool
  missingData : Bool
  dataDim : ℕ
  params : P
  trainNll : ℚ

/-- BaseModel.e_step (models.py lines 108-117): dispatch on the
missing_data flag, never on the data passed in.  The family-specific
E-steps (virtual methods in the source) are the parameters eMiss and
eNoMiss, each returning the sufficient statistics and the per-row
log-likelihood vector. -/
def eStepDispatch {P SS : Type} (eMiss eNoMiss : DataSet → P → SS × List ℚ)
    (missingData : Bool) (X : DataSet) (p : P) : SS × List ℚ :=
  if missingData then eMiss X p else eNoMiss X p

/-- Convergence test of one fit iteration (models.py line 300):
abs(ll - oldL) < tol, where oldL is none before the first iteration
(initialised to -np.inf, so the test is False there). -/
def tolStop (tol : ℚ) (oldL : Option ℚ) (ll : ℚ) : Bool :=
  match oldL with
  | none => false
  | some o => decide (|ll - o| < tol)

/-- The EM loop of BaseModel.fit (models.py lines 287-305), by
remaining iteration budget.  Each pass runs the E-step, forms
ll = sample_ll.mean() / data_dim, breaks before the M-step when the
change is below tol, and otherwise M-steps and continues.  The result
carries the loop variables read after the loop: the current params and
the last computed ll (none exactly when no iteration ran, in which case
the later read of ll raises NameError in the source). -/
def fitLoop {P SS : Type} (eStep : P → SS × List ℚ) (mStep : SS → P → P)
    (tol : ℚ) (dataDim : ℕ) : ℕ → P → Option ℚ → P × Option ℚ
  | 0, p, oldL => (p, oldL)
  | n + 1, p, oldL =>
      if tolStop tol oldL (listMean (eStep p).2 / (dataDim : ℚ)) then
        (p, some (listMean (eStep p).2 / (dataDim : ℚ)))
      else
        fitLoop eStep mStep tol dataDim n (mStep (eStep p).1 p)
          (some (listMean (eStep p).2 / (dataDim : ℚ)))

/-- BaseModel.fit (models.py lines 262-316): record the missing_data
flag from the raw data, drop all-missing rows, read data_dim from the
filtered data, run the EM loop on caller-supplied initial parameters
(the kmeans seeding routine is an external collaborator behind the same
entry point), and on completion store params and trainNll and mark the
model fitted.  A run whose loop never assigned ll (maxIter = 0) raises
NameError at the final read, modelled as none. -/
def fit {P SS : Type} (eMiss eNoMiss : DataSet → P → SS × List ℚ)
    (mStep : SS → P → P) (tol : ℚ) (maxIter : ℕ) (X : DataSet) (pInit : P) :
    Option (MixState P) :=
  match fitLoop
      (fun p => eStepDispatch eMiss eNoMiss (hasMissing X) (dropAllMissing X) p)
      mStep tol (widthOf (dropAllMissing X)) maxIter pInit none with
  | (p, some ll) =>
      some ⟨true, hasMissing X, widthOf (dropAllMissing X), p, ll⟩
  | (_, none) => none

/-- BaseModel.score_samples (models.py lines 352-358): on an unfitted
model print a warning and return None (none); otherwise return
e_step(X, params)[1] / data_dim, the per-row log-likelihood divided by
the data dimension. -/
def score_samples {P SS : Type} (eMiss eNoMiss : DataSet → P → SS × List ℚ)
    (st : MixState P) (X : DataSet) : Option (List ℚ) :=
  if st.isFitted then
    some (((eStepDispatch eMiss eNoMiss st.missingData X st.params).2).map
      (fun v => v / (st.dataDim : ℚ)))
  else none

/-- BaseModel.score (models.py lines 360-381): on an unfitted model
print a warning and return None; otherwise the mean of
score_samples. -/
def score {P SS : Type} (eMiss eNoMiss : DataSet → P → SS × List ℚ)
    (st : MixState P) (X : DataSet) : Option ℚ :=
  if st.isFitted then
    match score_samples eMiss eNoMiss st X with
    | some l => some (listMean l)
    | none => none
  else none

/-- BaseModel.sample (models.py lines 318-350): on an unfitted model
print a warning and return None; otherwise draw rows.  The body of the
fitted branch consumes the numpy global random generator, an external
collaborator modelled by the parameter draw. -/
def sample {P : Type} (draw : P → ℕ → List (List ℚ)) (st : MixState P)
    (nSamples : ℕ) : Option (List (List ℚ)) :=
  if st.isFitted then some (draw st.params nSamples) else none

/-- The parameter dictionary of MFA: mu_list, W_list, Psi_list,
components. -/
structure MFAParams (D L : ℕ) where
  muList : List (Fin D → ℚ)
  WList : List (Matrix (Fin D) (Fin L) ℚ)
  PsiList : List (Matrix (Fin D) (Fin D) ℚ)
  components : List ℚ

/-- MFA.reconstruct (models.py lines 1594-1626): on an unfitted model
print a warning and return None; otherwise map the latent points Z to
data space by Z @ W.T + mu for the chosen component, optionally adding
noise (the noise draw is the external numpy generator, passed in). -/
def reconstruct (D L : ℕ) (st : MixState (MFAParams D L)) (Z : List (Fin L → ℚ))
    (component : ℕ) (noisy : Bool) (noise : List (Fin D → ℚ)) :
    Option (List (Fin D → ℚ)) :=
  if st.isFitted then
    some (if noisy then
      List.zipWith (fun v e i => v i + e i)
        (Z.map (fun z i => (∑ l, z l * (st.params.WList.getD component 0).transpose l i) +
          st.params.muList.getD component (fun _ => 0) i)) noise
    else
      Z.map (fun z i => (∑ l, z l * (st.params.WList.getD component 0).transpose l i) +
        st.params.muList.getD component (fun _ => 0) i))
  else none

/-! ### Claim C6: responsibilities and mixture weights, over the reals -/

/-- scipy.misc.logsumexp of a vector (models.py lines 67 and 104). -/
noncomputable def logsumexp (K : ℕ) (v : Fin K → ℝ) : ℝ :=
  Real.log (∑ k, Real.exp (v k))

/-- One row of the responsibility matrix (models.py lines 66-68 and
103-105, shared verbatim by the complete-data and missing-data paths):
add the log mixture weights to the per-component log-densities of the
row, subtract the log-sum-exp of the result, exponentiate. -/
noncomputable def respRow (K : ℕ) (logr w : Fin K → ℝ) : Fin K → ℝ :=
  fun k => Real.exp (logr k + Real.log (w k) -
    logsumexp K (fun j => logr j + Real.log (w j)))

/-- The mixture weights produced by every M-step of the library
(models.py line 702 for GMM, 1155 for MPPCA, 1515 for MFA, inherited by
the spherical and diagonal variants): the summed responsibility of the
component divided by the number of rows. -/
noncomputable def mStepWeights (N K : ℕ) (resp : Fin N → Fin K → ℝ) : Fin K → ℝ :=
  fun k => (∑ n, resp n k) / (N : ℝ)

/-! ### Claim C7: the covariance materializers -/

/-- GMM.params_to_Sigma (models.py lines 720-722): the stored
covariance list, unchanged. -/
def gmmToSigma (D : ℕ) (SigmaList : List (Matrix (Fin D) (Fin D) ℚ)) :
    List (Matrix (Fin D) (Fin D) ℚ) := SigmaList

/-- SphericalGMM.params_to_Sigma (models.py lines 770-772):
sigma_sq * np.eye(data_dim) for each stored scalar. -/
def sphericalToSigma (D : ℕ) (sigmaSqList : List ℚ) :
    List (Matrix (Fin D) (Fin D) ℚ) :=
  sigmaSqList.map (fun s => s • (1 : Matrix (Fin D) (Fin D) ℚ))

/-- DiagonalGMM.convert_gmm_params (models.py line 779): the stored
matrices are np.diag(np.diag(cov)) of full covariances. -/
def diagonalConvert (D : ℕ) (SigmaList : List (Matrix (Fin D) (Fin D) ℚ)) :
    List (Matrix (Fin D) (Fin D) ℚ) :=
  SigmaList.map (fun S => Matrix.diagonal (fun i => S i i))

/-- DiagonalGMM.params_to_Sigma (models.py lines 784-785): the stored
Psi list, unchanged. -/
def diagonalToSigma (D : ℕ) (PsiList : List (Matrix (Fin D) (Fin D) ℚ)) :
    List (Matrix (Fin D) (Fin D) ℚ) := PsiList

/-- MPPCA.params_to_Sigma (models.py lines 1180-1185):
W @ W.T + sigma_sq * np.eye(data_dim) for each component.  The method
takes no further argument: there is no noiseless variant. -/
def mppcaToSigma (D L : ℕ) (WList : List (Matrix (Fin D) (Fin L) ℚ))
    (sigmaSqList : List ℚ) : List (Matrix (Fin D) (Fin D) ℚ) :=
  List.zipWith (fun W s => W * W.transpose + s • (1 : Matrix (Fin D) (Fin D) ℚ))
    WList sigmaSqList

/-- MFA.params_to_Sigma (models.py lines 1585-1592): W @ W.T + Psi when
noisy, W @ W.T when the noisy flag is cleared. -/
def mfaToSigma (D L : ℕ) (WList : List (Matrix (Fin D) (Fin L) ℚ))
    (PsiList : List (Matrix (Fin D) (Fin D) ℚ)) (noisy : Bool) :
    List (Matrix (Fin D) (Fin D) ℚ) :=
  if noisy then List.zipWith (fun W Psi => W * W.transpose + Psi) WList PsiList
  else WList.map (fun W => W * W.transpose)

/-- The zero loading matrix in dimension 1, used by the concrete checks
of C7. -/
def wZero : Matrix (Fin 1) (Fin 1) ℚ := 0

/-! ### Concrete instances used by closed checks -/

/-- A trivial E-step used by closed checks: empty statistics and a
constant per-row log-likelihood of 2. -/
def eStepC9 : DataSet → ℚ → Unit × List ℚ := fun _ _ => ((), [2])

/-- A fitted model state over scalar parameters with data_dim 2. -/
def stC9 : MixState ℚ := ⟨true, false, 2, 0, 0⟩

/-- An unfitted model state over scalar parameters. -/
def stUnfit : MixState ℚ := ⟨false, false, 2, 0, 0⟩

/-- An unfitted MFA model state in dimensions D = 1, L = 1. -/
def stUnfitMFA : MixState (MFAParams 1 1) := ⟨false, false, 1, ⟨[], [], [], []⟩, 0⟩

/-- A trivial M-step over scalar parameters used by closed checks. -/
def mStepK : Unit → ℚ → ℚ := fun _ p => p

/-- The model state produced by fitting the one-row complete dataset
with the trivial steps above for one iteration. -/
def stW : MixState ℚ := ⟨true, false, 1, 0, 2⟩

/-! ## Theorems -/

/-- Claim C1.  The claim states that on a density failure in robust
mode the evaluator retries once with SMALL added to the diagonal of the
covariance restricted to the observed coordinates.  The code instead
adds SMALL times the identity of the FULL data dimension.  At the
failing input (data_dim 3, two observed coordinates, singular observed
block) the source forms a (2,2)+(3,3) broadcast outside both try
blocks, so evaluation ends in an uncaught ValueError (shapeErr), while
the retry described by the claim succeeds (first conjunct versus
second). -/
theorem claim1_missing_retry_bug :
    evalComponentMiss scipyPdf true 1 3 [0, 0] [0, 0] sigObsBad =
      EvalResult.shapeErr ∧
    evalComponentMissPerClaim scipyPdf true 1 [0, 0] [0, 0] sigObsBad =
      EvalResult.ok 0 := by
  have hbad : scipyPdf [0, 0] [0, 0] sigObsBad = none := by
    rw [scipyPdf, if_neg]
    rintro ⟨-, -, -, -, hpd⟩
    have h0 := hpd 0 (by norm_num)
    norm_num [detAux, sigObsBad] at h0
  have hdims : NMat.add sigObsBad (NMat.smul 1 (NMat.eye 3)) = none := by
    simp [NMat.add, sigObsBad, NMat.smul, NMat.eye, bdim]
  have hacc : scipyAccepts 2 2 ⟨2, 2, fun i j => if i = j then (1 : ℚ) else 0⟩ := by
    refine ⟨rfl, rfl, rfl, ?_, ?_⟩
    · intro i hi j hj
      interval_cases i <;> interval_cases j <;> norm_num
    · intro k hk
      interval_cases k <;> norm_num [detAux, List.range_succ]
  have hgood : scipyPdf [0, 0] [0, 0]
      ⟨2, 2, fun i j => if i = j then (1 : ℚ) else 0⟩ = some 0 := by
    rw [scipyPdf]
    exact if_pos hacc
  constructor
  · simp only [evalComponentMiss, hbad, hdims, if_true]
  · simp only [evalComponentMissPerClaim, hbad]
    simp [NMat.add, bdim, sigObsBad, NMat.smul, NMat.eye, bidx, hgood]

/-- Claim C2.  On a fully observed dataset the missing-data E-step of
MPPCA cannot reproduce the complete-data E-step for latent_dim at least
2, because its residual statistic np.trace(zz * W.T @ W) associates as
(zz * W.T) @ W and the (2,2)*(2,3) elementwise broadcast is invalid:
at the concrete input (latent_dim 2, data_dim 3) the missing-path term
raises (none) while the complete-data term evaluates. -/
theorem claim2_mppca_resid_crash :
    mppcaResidTermMiss zzC wC = none ∧ mppcaResidTermNoMiss zzC wC = some 6 := by
  constructor
  · simp [mppcaResidTermMiss, NMat.hadamard, NMat.transpose, zzC, wC, bdim]
  · simp [mppcaResidTermNoMiss, NMat.matmul, NMat.hadamard, NMat.transpose,
      NMat.trace, zzC, wC, bdim, bidx, List.range_succ]
    norm_num

/-- Claim C4.  The increment to the accumulated latent second moment in
the missing-coordinate branch of MFA.e_step_miss carries no
responsibility weight: at responsibility 1/2 and unit conditional mean
it adds 1 where the fully-observed branch of the same method and the
MPPCA missing branch (and the claim) add 1/2. -/
theorem claim4_mfa_zz_unweighted :
    mfaMissZZIncrement 1 (fun _ => 1) 0 0 0 = 1 ∧
    mfaNoMissZZIncrement 1 (1 / 2) (fun _ => 1) 0 0 0 = 1 / 2 ∧
    mppcaMissZZIncrement 1 (1 / 2) (fun _ => 1) 0 0 0 = 1 / 2 ∧
    mfaMissZZIncrement 1 (fun _ => 1) 0 0 0 ≠
      mfaNoMissZZIncrement 1 (1 / 2) (fun _ => 1) 0 0 0 := by
  refine ⟨?_, ?_, ?_, ?_⟩ <;>
    norm_num [mfaMissZZIncrement, mfaNoMissZZIncrement, mppcaMissZZIncrement,
      Matrix.add_apply, Matrix.smul_apply, Matrix.of_apply, Matrix.zero_apply,
      smul_eq_mul]

/-- Counterexample to claim C5 as stated: a fit run whose iteration
budget is zero exhausts the budget without failing the tolerance test,
yet the fit fails (the final read of the loop variable ll raises
NameError), so no parameters are retained and the model is not marked
fitted. -/
theorem claim5_zero_iter_failure :
    fit (fun (_ : DataSet) (_ : ℚ) => (((), [0]) : Unit × List ℚ))
      (fun (_ : DataSet) (_ : ℚ) => (((), [0]) : Unit × List ℚ))
      (fun _ p => p) 1 0 [[some 0]] 0 = none := by
  rfl

/-- Counterexample to claim C7 as stated: the PPCA materializer has no
noiseless mode.  Its only output at the one-component parameter set
with zero loading and unit noise carries the noise term (entry 1),
whereas the noiseless matrix loading times loading transposed is zero
there. -/
theorem claim7_ppca_always_noisy :
    (mppcaToSigma 1 1 [wZero] [1]).headI 0 0 = 1 ∧
    (wZero * wZero.transpose) 0 0 = 0 := by
  constructor
  · norm_num [mppcaToSigma, wZero, List.zipWith, Matrix.add_apply,
      Matrix.smul_apply, Matrix.one_apply, smul_eq_mul]
  · simp [wZero]

/-- Counterexample to claim C9 as stated: with a fitted model of data
dimension 2 whose E-step reports a per-row log-likelihood of 2,
score_samples returns 1 for the row, not the per-row log-likelihood 2:
the source divides by data_dim. -/
theorem claim9_divides_by_dim :
    score_samples eStepC9 eStepC9 stC9 [[some 0, some 0]] = some [1] ∧
    (eStepC9 [[some 0, some 0]] stC9.params).2 = [2] ∧
    ((1 : ℚ) ≠ 2) := by
  refine ⟨?_, rfl, by norm_num⟩
  simp [score_samples, eStepDispatch, eStepC9, stC9]

/-- Claim C3.  In the full-covariance missing-data E-step, for a row
with missing coordinates, the contribution of the row to the
accumulated second-moment matrix at a missing-missing index pair equals
the conditional covariance of the missing coordinates given the
observed ones (Sigma_miss minus Sigma_miss_obs times the inverse of the
observed block times Sigma_obs_miss, spelled out on the right) plus the
product of the conditional means, the whole weighted by the
responsibility r of the row for the component; in particular it is not
the bare product of the point estimates. -/
theorem claim3_xx_block (D : ℕ) (Sigma : Matrix (Fin D) (Fin D) ℚ)
    (mu row : Fin D → ℚ) (obs : Fin D → Bool)
    (SigInv : Matrix {t : Fin D // obs t = true} {t : Fin D // obs t = true} ℚ)
    (r : ℚ) (i j : Fin D) (hi : obs i = false) (hj : obs j = false) :
    gmmMissXXContrib D Sigma mu row obs SigInv r i j =
      ((Sigma i j -
          ∑ a : {t : Fin D // obs t = true}, ∑ b : {t : Fin D // obs t = true},
            Sigma i a.1 * SigInv a b * Sigma b.1 j) +
        condMean D Sigma mu row obs SigInv i *
          condMean D Sigma mu row obs SigInv j) * r := by
  unfold gmmMissXXContrib gmmMissXX condCov
  rw [hi, hj]
  simp only [Bool.false_eq_true, if_false]
  ring

/-- Concrete check of C3 at the pattern obsW (coordinate 1 missing) in
dimension 2, with zero parameters, zero row and unit responsibility. -/
theorem claim3_xx_block_check :
    obsW 1 = false ∧ gmmMissXXContrib 2 0 0 0 obsW 0 1 1 1 = 0 := by
  refine ⟨by decide, ?_⟩
  have h := claim3_xx_block 2 0 0 0 obsW 0 1 1 1 (by decide) (by decide)
  simpa [condMean] using h

/-- Helper for C5: the EM loop ends with a computed log-likelihood
whenever it starts with one or has at least one iteration of budget. -/
theorem fitLoop_ll_isSome {P SS : Type} (eStep : P → SS × List ℚ)
    (mStep : SS → P → P) (tol : ℚ) (d : ℕ) :
    ∀ (n : ℕ) (p : P) (o : Option ℚ), o.isSome = true ∨ 1 ≤ n →
      ((fitLoop eStep mStep tol d n p o).2).isSome = true := by
  intro n
  induction n with
  | zero =>
    intro p o h
    rcases h with h | h
    · simpa [fitLoop] using h
    · omega
  | succ m ih =>
    intro p o _
    rw [fitLoop]
    split
    · rfl
    · exact ih _ _ (Or.inl rfl)

/-- Claim C5, amended to runs with at least one iteration of budget
(the counterexample claim5_zero_iter_failure forces the restriction).
First conjunct: the fit completes with the model marked fitted, in
particular exhaustion of the budget is not a failure and the final
parameters and log-likelihood are retained on the state.  Second and
third conjuncts: each iteration compares the mean per-row
log-likelihood divided by the data dimension against the previous one
and stops immediately, without a further M-step, exactly when the
absolute change falls below the tolerance, and otherwise M-steps and
continues. -/
theorem claim5_driver {P SS : Type} (eMiss eNoMiss : DataSet → P → SS × List ℚ)
    (mStep : SS → P → P) (tol : ℚ) (maxIter : ℕ) (X : DataSet) (pInit : P)
    (h : 1 ≤ maxIter) :
    (∃ st : MixState P, fit eMiss eNoMiss mStep tol maxIter X pInit = some st ∧
        st.isFitted = true) ∧
    (∀ (eStep : P → SS × List ℚ) (d n : ℕ) (p : P) (o : ℚ),
        |listMean (eStep p).2 / (d : ℚ) - o| < tol →
        fitLoop eStep mStep tol d (n + 1) p (some o) =
          (p, some (listMean (eStep p).2 / (d : ℚ)))) ∧
    (∀ (eStep : P → SS × List ℚ) (d n : ℕ) (p : P) (o : ℚ),
        ¬ |listMean (eStep p).2 / (d : ℚ) - o| < tol →
        fitLoop eStep mStep tol d (n + 1) p (some o) =
          fitLoop eStep mStep tol d n (mStep (eStep p).1 p)
            (some (listMean (eStep p).2 / (d : ℚ)))) := by
  refine ⟨?_, ?_, ?_⟩
  · have hs := fitLoop_ll_isSome
      (fun p => eStepDispatch eMiss eNoMiss (hasMissing X) (dropAllMissing X) p)
      mStep tol (widthOf (dropAllMissing X)) maxIter pInit none (Or.inr h)
    rcases hL : fitLoop
        (fun p => eStepDispatch eMiss eNoMiss (hasMissing X) (dropAllMissing X) p)
        mStep tol (widthOf (dropAllMissing X)) maxIter pInit none with ⟨p, op⟩
    rw [hL] at hs
    cases op with
    | none => simp at hs
    | some ll =>
        exact ⟨⟨true, hasMissing X, widthOf (dropAllMissing X), p, ll⟩,
          by simp only [fit, hL], rfl⟩
  · intro eStep d n p o hlt
    rw [fitLoop, if_pos]
    simpa [tolStop] using hlt
  · intro eStep d n p o hlt
    rw [fitLoop, if_neg]
    simpa [tolStop] using hlt

/-- Concrete check of C5 at one iteration of budget with the trivial
steps. -/
theorem claim5_driver_check :
    1 ≤ 1 ∧
    ((∃ st : MixState ℚ, fit eStepC9 eStepC9 mStepK 1 1 [[some 0]] 0 = some st ∧
        st.isFitted = true) ∧
     (∀ (eStep : ℚ → Unit × List ℚ) (d n : ℕ) (p : ℚ) (o : ℚ),
        |listMean (eStep p).2 / (d : ℚ) - o| < 1 →
        fitLoop eStep mStepK 1 d (n + 1) p (some o) =
          (p, some (listMean (eStep p).2 / (d : ℚ)))) ∧
     (∀ (eStep : ℚ → Unit × List ℚ) (d n : ℕ) (p : ℚ) (o : ℚ),
        ¬ |listMean (eStep p).2 / (d : ℚ) - o| < 1 →
        fitLoop eStep mStepK 1 d (n + 1) p (some o) =
          fitLoop eStep mStepK 1 d n (mStepK (eStep p).1 p)
            (some (listMean (eStep p).2 / (d : ℚ))))) :=
  ⟨le_refl 1, claim5_driver eStepC9 eStepC9 mStepK 1 1 [[some 0]] 0 (le_refl 1)⟩

/-- Helper for C6: a softmax built from any score vector sums to 1. -/
theorem sum_exp_sub_logsumexp (K : ℕ) (hK : 0 < K) (a : Fin K → ℝ) :
    ∑ k, Real.exp (a k - logsumexp K a) = 1 := by
  have hne : Nonempty (Fin K) := ⟨⟨0, hK⟩⟩
  have hS : 0 < ∑ j, Real.exp (a j) :=
    Finset.sum_pos (fun j _ => Real.exp_pos _) Finset.univ_nonempty
  have hterm : ∀ k : Fin K,
      Real.exp (a k - logsumexp K a) = Real.exp (a k) / ∑ j, Real.exp (a j) := by
    intro k
    rw [logsumexp, Real.exp_sub, Real.exp_log hS]
  rw [Finset.sum_congr rfl (fun k _ => hterm k), ← Finset.sum_div,
    div_self (ne_of_gt hS)]

/-- Claim C6.  With at least one row and one component, every
responsibility produced by the shared log-sum-exp normalisation is
non-negative, every responsibility row sums to 1, and the mixture
weights produced by the M-step (summed responsibilities divided by the
row count, the same formula in every family and on both data paths) are
non-negative and sum to 1. -/
theorem claim6_weights_invariant (N K : ℕ) (hN : 0 < N) (hK : 0 < K)
    (logr : Fin N → Fin K → ℝ) (w : Fin K → ℝ) :
    (∀ n k, 0 ≤ respRow K (logr n) w k) ∧
    (∀ n, ∑ k, respRow K (logr n) w k = 1) ∧
    (∀ k, 0 ≤ mStepWeights N K (fun n => respRow K (logr n) w) k) ∧
    ∑ k, mStepWeights N K (fun n => respRow K (logr n) w) k = 1 := by
  have hrow : ∀ n, ∑ k, respRow K (logr n) w k = 1 := by
    intro n
    have h := sum_exp_sub_logsumexp K hK (fun k => logr n k + Real.log (w k))
    simpa [respRow] using h
  refine ⟨fun n k => Real.exp_nonneg _, hrow, ?_, ?_⟩
  · intro k
    unfold mStepWeights
    exact div_nonneg (Finset.sum_nonneg fun n _ => Real.exp_nonneg _)
      (Nat.cast_nonneg N)
  · unfold mStepWeights
    rw [← Finset.sum_div, Finset.sum_comm]
    rw [Finset.sum_congr rfl (fun n _ => hrow n)]
    rw [Finset.sum_const, Finset.card_univ, Fintype.card_fin, nsmul_eq_mul,
      mul_one]
    exact div_self (by exact_mod_cast hN.ne')

/-- Concrete check of C6 with one row, one component, zero log-density
and unit weight. -/
theorem claim6_weights_invariant_check :
    0 < 1 ∧ 0 < 1 ∧
    ((∀ (n : Fin 1) (k : Fin 1),
        0 ≤ respRow 1 ((fun (_ : Fin 1) (_ : Fin 1) => (0 : ℝ)) n)
          (fun _ => 1) k) ∧
     (∀ n : Fin 1, ∑ k, respRow 1 ((fun (_ : Fin 1) (_ : Fin 1) => (0 : ℝ)) n)
        (fun _ => 1) k = 1) ∧
     (∀ k : Fin 1, 0 ≤ mStepWeights 1 1
        (fun n => respRow 1 ((fun (_ : Fin 1) (_ : Fin 1) => (0 : ℝ)) n)
          (fun _ => 1)) k) ∧
     ∑ k, mStepWeights 1 1
        (fun n => respRow 1 ((fun (_ : Fin 1) (_ : Fin 1) => (0 : ℝ)) n)
          (fun _ => 1)) k = 1) :=
  ⟨Nat.one_pos, Nat.one_pos,
    claim6_weights_invariant 1 1 Nat.one_pos Nat.one_pos
      (fun _ _ => (0 : ℝ)) (fun _ => 1)⟩

/-- Claim C7, amended: the noiseless mode exists only for the
factor-analysis family (the counterexample claim7_ppca_always_noisy
shows the PPCA materializer always carries its noise term).  Full:
stored covariances unchanged.  Spherical: the stored scalar broadcast
along the diagonal.  Diagonal: a diagonal matrix holding the per-axis
variances of the covariance it was converted from.  PPCA: loading times
loading transposed plus the scalar noise on the diagonal.  Factor
analysis: loading times loading transposed plus the stored noise
matrix when noisy, and with the noise omitted when the noisy flag is
cleared. -/
theorem claim7_materializers (D L : ℕ) :
    (∀ Ss : List (Matrix (Fin D) (Fin D) ℚ), gmmToSigma D Ss = Ss) ∧
    (∀ ss : List ℚ, sphericalToSigma D ss =
      ss.map (fun s => Matrix.diagonal (fun _ => s))) ∧
    (∀ Ss : List (Matrix (Fin D) (Fin D) ℚ),
      diagonalToSigma D (diagonalConvert D Ss) =
        Ss.map (fun S => Matrix.diagonal (fun i => S i i))) ∧
    (∀ (WL : List (Matrix (Fin D) (Fin L) ℚ)) (sl : List ℚ),
      mppcaToSigma D L WL sl =
        List.zipWith (fun W s => Matrix.of (fun i j =>
          (∑ l, W i l * W j l) + if i = j then s else 0)) WL sl) ∧
    (∀ (WL : List (Matrix (Fin D) (Fin L) ℚ))
        (PL : List (Matrix (Fin D) (Fin D) ℚ)),
      mfaToSigma D L WL PL true =
        List.zipWith (fun W Psi => Matrix.of (fun i j =>
          (∑ l, W i l * W j l) + Psi i j)) WL PL) ∧
    (∀ (WL : List (Matrix (Fin D) (Fin L) ℚ))
        (PL : List (Matrix (Fin D) (Fin D) ℚ)),
      mfaToSigma D L WL PL false =
        WL.map (fun W => Matrix.of (fun i j => ∑ l, W i l * W j l))) := by
  have hsph : (fun s : ℚ => s • (1 : Matrix (Fin D) (Fin D) ℚ)) =
      (fun s => Matrix.diagonal (fun _ => s)) := by
    funext s
    ext i j
    rcases eq_or_ne i j with hij | hij <;>
      simp [Matrix.smul_apply, Matrix.one_apply, Matrix.diagonal_apply, hij]
  have hppca : (fun (W : Matrix (Fin D) (Fin L) ℚ) (s : ℚ) =>
      W * W.transpose + s • (1 : Matrix (Fin D) (Fin D) ℚ)) =
      (fun W s => Matrix.of (fun i j =>
        (∑ l, W i l * W j l) + if i = j then s else 0)) := by
    funext W s
    ext i j
    rcases eq_or_ne i j with hij | hij <;>
      simp [Matrix.add_apply, Matrix.mul_apply, Matrix.transpose_apply,
        Matrix.smul_apply, Matrix.one_apply, Matrix.of_apply, hij]
  have hmfa : (fun (W : Matrix (Fin D) (Fin L) ℚ)
      (Psi : Matrix (Fin D) (Fin D) ℚ) => W * W.transpose + Psi) =
      (fun W Psi => Matrix.of (fun i j => (∑ l, W i l * W j l) + Psi i j)) := by
    funext W Psi
    ext i j
    simp [Matrix.add_apply, Matrix.mul_apply, Matrix.transpose_apply,
      Matrix.of_apply]
  have hmfa0 : (fun (W : Matrix (Fin D) (Fin L) ℚ) => W * W.transpose) =
      (fun W => Matrix.of (fun i j => ∑ l, W i l * W j l)) := by
    funext W
    ext i j
    simp [Matrix.mul_apply, Matrix.transpose_apply, Matrix.of_apply]
  refine ⟨fun Ss => rfl, ?_, fun Ss => rfl, ?_, ?_, ?_⟩
  · intro ss
    rw [sphericalToSigma, hsph]
  · intro WL sl
    rw [mppcaToSigma, hppca]
  · intro WL PL
    rw [mfaToSigma, if_pos rfl, hmfa]
  · intro WL PL
    rw [mfaToSigma, if_neg Bool.false_ne_true, hmfa0]

/-- Claim C8.  On a model on which fit has not completed (the isFitted
flag is still False), sample, score_samples, score and reconstruct all
return None instead of a numeric result. -/
theorem claim8_unfitted_guard {P SS : Type} (D L : ℕ)
    (draw : P → ℕ → List (List ℚ)) (eMiss eNoMiss : DataSet → P → SS × List ℚ)
    (st : MixState P) (stF : MixState (MFAParams D L)) (n : ℕ) (X : DataSet)
    (Z : List (Fin L → ℚ)) (component : ℕ) (noisy : Bool)
    (noise : List (Fin D → ℚ))
    (h : st.isFitted = false) (hF : stF.isFitted = false) :
    sample draw st n = none ∧
    score_samples eMiss eNoMiss st X = none ∧
    score eMiss eNoMiss st X = none ∧
    reconstruct D L stF Z component noisy noise = none := by
  refine ⟨?_, ?_, ?_, ?_⟩ <;>
    simp [sample, score_samples, score, reconstruct, h, hF]

/-- Concrete check of C8 on freshly constructed (unfitted) states. -/
theorem claim8_unfitted_guard_check :
    stUnfit.isFitted = false ∧ stUnfitMFA.isFitted = false ∧
    (sample (fun _ _ => []) stUnfit 1 = none ∧
     score_samples eStepC9 eStepC9 stUnfit [] = none ∧
     score eStepC9 eStepC9 stUnfit [] = none ∧
     reconstruct 1 1 stUnfitMFA [] 0 false [] = none) :=
  ⟨rfl, rfl,
    claim8_unfitted_guard 1 1 (fun _ _ => []) eStepC9 eStepC9 stUnfit
      stUnfitMFA 1 [] [] 0 false [] rfl rfl⟩

/-- Claim C9, amended: on a fitted model, score_samples returns the
per-row log-likelihood DIVIDED BY THE DATA DIMENSION (the
counterexample claim9_divides_by_dim forces the division), and score
returns the mean of those per-dimension values. -/
theorem claim9_per_dimension {P SS : Type}
    (eMiss eNoMiss : DataSet → P → SS × List ℚ)
    (st : MixState P) (X : DataSet) (h : st.isFitted = true) :
    score_samples eMiss eNoMiss st X =
      some (((eStepDispatch eMiss eNoMiss st.missingData X st.params).2).map
        (fun v => v / (st.dataDim : ℚ))) ∧
    score eMiss eNoMiss st X =
      some (listMean
        (((eStepDispatch eMiss eNoMiss st.missingData X st.params).2).map
          (fun v => v / (st.dataDim : ℚ)))) := by
  constructor <;> simp [score, score_samples, h]

/-- Concrete check of C9 on a fitted state. -/
theorem claim9_per_dimension_check :
    stC9.isFitted = true ∧
    (score_samples eStepC9 eStepC9 stC9 [] =
      some (((eStepDispatch eStepC9 eStepC9 stC9.missingData [] stC9.params).2).map
        (fun v => v / (stC9.dataDim : ℚ))) ∧
     score eStepC9 eStepC9 stC9 [] =
      some (listMean
        (((eStepDispatch eStepC9 eStepC9 stC9.missingData [] stC9.params).2).map
          (fun v => v / (stC9.dataDim : ℚ))))) :=
  ⟨rfl, claim9_per_dimension eStepC9 eStepC9 stC9 [] rfl⟩

/-- Claim C10.  Scoring dispatches on the missing_data flag recorded by
fit from the TRAINING data, never on the data being scored: after a
successful fit on Xtrain, the state carries hasMissing Xtrain, and for
EVERY dataset Xnew (with or without missing entries) score_samples
evaluates the complete-data E-step when the training data was complete,
and the missing-data E-step when it was not. -/
theorem claim10_flag_dispatch {P SS : Type}
    (eMiss eNoMiss : DataSet → P → SS × List ℚ) (mStep : SS → P → P)
    (tol : ℚ) (maxIter : ℕ) (Xtrain Xnew : DataSet) (pInit : P)
    (st : MixState P)
    (hfit : fit eMiss eNoMiss mStep tol maxIter Xtrain pInit = some st) :
    st.missingData = hasMissing Xtrain ∧
    (hasMissing Xtrain = false →
      score_samples eMiss eNoMiss st Xnew =
        some (((eNoMiss Xnew st.params).2).map
          (fun v => v / (st.dataDim : ℚ)))) ∧
    (hasMissing Xtrain = true →
      score_samples eMiss eNoMiss st Xnew =
        some (((eMiss Xnew st.params).2).map
          (fun v => v / (st.dataDim : ℚ)))) := by
  unfold fit at hfit
  rcases hL : fitLoop
      (fun p => eStepDispatch eMiss eNoMiss (hasMissing Xtrain)
        (dropAllMissing Xtrain) p)
      mStep tol (widthOf (dropAllMissing Xtrain)) maxIter pInit none with ⟨p, op⟩
  rw [hL] at hfit
  cases op with
  | none => cases hfit
  | some ll =>
      have hst := Option.some.inj hfit
      subst hst
      refine ⟨rfl, ?_, ?_⟩ <;> intro hflag <;>
        simp [score_samples, eStepDispatch, hflag]

/-- Concrete check of C10: a complete-data fit, then scoring a dataset
that DOES contain a missing entry still uses the complete-data path. -/
theorem claim10_flag_dispatch_check :
    fit eStepC9 eStepC9 mStepK 1 1 [[some 0]] 0 = some stW ∧
    (stW.missingData = hasMissing [[some 0]] ∧
     (hasMissing [[some 0]] = false →
       score_samples eStepC9 eStepC9 stW [[none]] =
         some (((eStepC9 [[none]] stW.params).2).map
           (fun v => v / (stW.dataDim : ℚ)))) ∧
     (hasMissing [[some 0]] = true →
       score_samples eStepC9 eStepC9 stW [[none]] =
         some (((eStepC9 [[none]] stW.params).2).map
           (fun v => v / (stW.dataDim : ℚ))))) := by
  have hf : fit eStepC9 eStepC9 mStepK 1 1 [[some 0]] 0 = some stW := by
    simp [fit, fitLoop, tolStop, listMean, eStepC9, mStepK, eStepDispatch,
      hasMissing, dropAllMissing, widthOf, stW]
  exact ⟨hf, claim10_flag_dispatch eStepC9 eStepC9 mStepK 1 1 [[some 0]]
    [[none]] 0 stW hf⟩

end PyMM
